import Mathlib

/-!
Verification of the session-monitor core: a shallow embedding of the
JavaScript sources (src/signals.mjs, src/assess.mjs, src/tail.mjs,
src/monitor.mjs) into Lean 4, together with theorems settling the
spec's claims about them.

Conventions of the embedding:
* JS strings are Lean `String`; `x ?? d` on a possibly-absent value is
  `Option.getD`; an absent object field is `none`.
* JS numbers appearing here are integers in the code (scores, counters),
  embedded as `Int`/`Nat`.
* The asynchronous API call in `assess` is abstracted by an
  `Option ApiResponse` argument: `none` models the failure paths the
  `catch` swallows (network error, timeout, output `JSON.parse`
  rejects), `some r` any output `JSON.parse` accepted — `ApiResponse`
  keeps each field optional, because the code reads the parsed object
  without validating its shape and defaults each missing field.
-/

namespace SessionMonitor

/-- `tool.input` as the embedded code reads it: the detectors and the
assessor prompt only access `input.command` and `input.file_path`;
other keys of the raw JS object are never inspected. -/
structure ToolInput where
  command : Option String
  file_path : Option String
deriving DecidableEq, Repr, Inhabited

/-- `e.tool` of a tool_call event: `{ name, input }`. -/
structure ToolSpec where
  name : String
  input : ToolInput
deriving DecidableEq, Repr, Inhabited

/-- The tagged events `parseLine` (src/monitor.mjs) produces. -/
inductive Event where
  | user_message (text : String) (timestamp : String)
  | tool_call (id : String) (tool : ToolSpec) (failed : Bool) (timestamp : String)
  | tool_result (toolUseId : String) (content : Option String) (isError : Bool)
      (timestamp : String)
deriving DecidableEq, Repr

/-- `e.type === 'tool_call'`. -/
def isToolCallEvent : Event → Bool
  | .tool_call _ _ _ _ => true
  | _ => false

/-- `e.type === 'tool_result'`. -/
def isToolResultEvent : Event → Bool
  | .tool_result _ _ _ _ => true
  | _ => false

/-- `e.tool?.name`: `undefined` (here `none`) unless the event is a
tool_call. -/
def toolName? : Event → Option String
  | .tool_call _ t _ _ => some t.name
  | _ => none

/-- `e.tool.input.command` (only ever read on tool_calls; on other
events `e.tool?.name` checks fail first, so `none` is safe). -/
def inputCommand : Event → Option String
  | .tool_call _ t _ _ => t.input.command
  | _ => none

/-- `e.tool.input.file_path`. -/
def inputFilePath : Event → Option String
  | .tool_call _ t _ _ => t.input.file_path
  | _ => none

/-- `e.failed`: `undefined` (falsy) on non-tool_call events. -/
def eventFailed : Event → Bool
  | .tool_call _ _ f _ => f
  | _ => false

/-- `['Edit', 'Write'].includes(e.tool?.name)`. -/
def isEditWrite (e : Event) : Bool :=
  toolName? e == some "Edit" || toolName? e == some "Write"

/-! ### JS string helpers used by the detectors and `normalizeStatus` -/

/-- `needle` is a leading segment of `hay` (character lists). -/
def isPrefixList : List Char → List Char → Bool
  | [], _ => true
  | _ :: _, [] => false
  | a :: as, b :: bs => a == b && isPrefixList as bs

/-- `needle` occurs contiguously in `hay`: JS `hay.includes(needle)`
on character lists. -/
def hasSubstr (needle : List Char) : List Char → Bool
  | [] => needle.isEmpty
  | c :: rest => isPrefixList needle (c :: rest) || hasSubstr needle rest

/-- JS `s.includes(pat)`. -/
def jsIncludes (s pat : String) : Bool :=
  hasSubstr pat.data s.data

/- The JS string primitives the embedded code uses, implemented by
structural recursion over the character list (so that every theorem
about a concrete input evaluates). -/

/-- JS `s.toLowerCase()` (per-character, which covers the ASCII paths
and goal texts the code handles). -/
def strLower (s : String) : String :=
  ⟨s.data.map Char.toLower⟩

/-- JS `s.toUpperCase()`. -/
def strUpper (s : String) : String :=
  ⟨s.data.map Char.toUpper⟩

/-- JS `s.trim()`: strip leading and trailing whitespace. -/
def strTrim (s : String) : String :=
  ⟨(((s.data.dropWhile Char.isWhitespace).reverse).dropWhile Char.isWhitespace).reverse⟩

/-- JS `s.substring(0, n)` / `s.slice(0, n)`. -/
def strTake (s : String) (n : Nat) : String :=
  ⟨s.data.take n⟩

def splitWhiteAux : List Char → List Char → List String
  | [], acc => if acc.isEmpty then [] else [⟨acc.reverse⟩]
  | c :: rest, acc =>
    if c.isWhitespace then
      if acc.isEmpty then splitWhiteAux rest []
      else ⟨acc.reverse⟩ :: splitWhiteAux rest []
    else splitWhiteAux rest (c :: acc)

/-- JS `s.split(/\s+/)` with empty segments dropped. The real split can
yield one leading empty string, but every caller filters the pieces by
`length > 3`, so dropping empties is observationally equal. -/
def splitWhite (s : String) : List String :=
  splitWhiteAux s.data []

/-! ### src/signals.mjs — the seven detectors -/

structure LoopSig where
  detected : Bool
  command : Option String
  count : Option Nat
deriving DecidableEq, Repr

structure StuckSig where
  detected : Bool
  file : Option String
  count : Option Nat
deriving DecidableEq, Repr

structure StreakSig where
  detected : Bool
  streak : Nat
deriving DecidableEq, Repr

structure ParaSig where
  detected : Bool
  count : Nat
deriving DecidableEq, Repr

structure CreepSig where
  detected : Bool
  files : List String
deriving DecidableEq, Repr

structure MomSig where
  detected : Bool
  count : Nat
deriving DecidableEq, Repr

structure ProgSig where
  detected : Bool
deriving DecidableEq, Repr

structure SignalSet where
  loop : LoopSig
  stuckOnFile : StuckSig
  errorStreak : StreakSig
  paralysis : ParaSig
  scopeCreep : CreepSig
  goodMomentum : MomSig
  noProgress : ProgSig
deriving DecidableEq, Repr

/-- The largest value a string attains in the JS counting idiom
`counts[c] = (counts[c] ?? 0) + 1` followed by
`Object.entries(counts).sort((a,b) => b[1]-a[1])[0]`: the maximum
multiplicity of an element of `l` (0 when `l` is empty, where the JS
`worst` is `undefined` and the `worst && ...` guard fails). -/
def maxCount (l : List String) : Nat :=
  (l.map (fun c => l.count c)).foldr max 0

/-- The key the stable descending sort puts first: the earliest-inserted
(first-occurring) element of maximal multiplicity. -/
def firstMaxKey (l : List String) : Option String :=
  l.eraseDups.find? (fun c => l.count c == maxCount l)

/-- JS `slice(-n)`: the last `n` elements (all of them when fewer). -/
def lastN (n : Nat) (l : List Event) : List Event :=
  l.drop (l.length - n)

/-- `detectLoop`'s `cmds`: the trimmed, 80-char-capped commands of the
window's Bash calls. -/
def bashCmds (recent : List Event) : List String :=
  (recent.filter (fun e => toolName? e == some "Bash")).map
    (fun e => strTake (strTrim ((inputCommand e).getD "")) 80)

/-- `detectLoop` (src/signals.mjs): same Bash command (trimmed, first 80
chars) occurring 3+ times among the recent Bash calls. -/
def detectLoop (recent : List Event) : LoopSig :=
  let cmds := bashCmds recent
  let m := maxCount cmds
  if 3 ≤ m then
    { detected := true, command := firstMaxKey cmds, count := some m }
  else
    { detected := false, command := none, count := none }

/-- `detectStuckOnFile`'s `edits`. -/
def editsOf (recent : List Event) : List Event :=
  recent.filter isEditWrite

/-- The target paths of the window's Edit/Write calls
(`e.tool.input.file_path ?? ''`). -/
def editFilePaths (recent : List Event) : List String :=
  (editsOf recent).map (fun e => (inputFilePath e).getD "")

/-- `detectStuckOnFile`: among recent Edit/Write calls (5+ present), the
most frequent target file occurs 5+ times. -/
def detectStuckOnFile (recent : List Event) : StuckSig :=
  if (editsOf recent).length < 5 then { detected := false, file := none, count := none }
  else
    let files := editFilePaths recent
    let m := maxCount files
    if 5 ≤ m then { detected := true, file := firstMaxKey files, count := some m }
    else { detected := false, file := none, count := none }

/-- The `(streak, maxStreak)` pair the `detectErrorStreak` loop
accumulates over the window. -/
def streakFold (recent : List Event) : Nat × Nat :=
  recent.foldl
    (fun s e => if eventFailed e then (s.1 + 1, max s.2 (s.1 + 1)) else (0, s.2))
    (0, 0)

/-- `detectErrorStreak`: a run of 3+ consecutive failed calls. -/
def detectErrorStreak (recent : List Event) : StreakSig :=
  let m := (streakFold recent).2
  { detected := decide (3 ≤ m), streak := m }

def isReadTool (n : Option String) : Bool :=
  n == some "Read" || n == some "Glob" || n == some "Grep" || n == some "WebFetch"

/-- The backward scan of `detectParalysis`: walking the window from the
newest event, stop at the first Edit/Write, counting read-like calls.
Applied to `recent.reverse`. -/
def paralysisScan : List Event → Nat
  | [] => 0
  | e :: rest =>
    if isEditWrite e then 0
    else (if isReadTool (toolName? e) then 1 else 0) + paralysisScan rest

/-- `detectParalysis`: 8+ Read/Glob/Grep/WebFetch since the last
Edit/Write. -/
def detectParalysis (recent : List Event) : ParaSig :=
  let c := paralysisScan recent.reverse
  { detected := decide (8 ≤ c), count := c }

/-- The per-file test of `detectScopeCreep`'s `unrelated` filter. -/
def isUnrelatedFile (goalWords : List String) (f : String) : Bool :=
  !(goalWords.any (fun w => jsIncludes f w)) &&
    !jsIncludes f "test" && !jsIncludes f "spec" && !jsIncludes f "config"

/-- The lowercased paths of the window's Edit/Write calls. -/
def editedFilesLower (recent : List Event) : List String :=
  (recent.filter isEditWrite).map (fun e => strLower ((inputFilePath e).getD ""))

/-- The goal's significant words: lowercased, whitespace-split, longer
than 3 characters. -/
def goalWordsOf (goal : String) : List String :=
  (splitWhite (strLower goal)).filter (fun w => 3 < w.length)

/-- `detectScopeCreep`'s `unrelated` list (counted with multiplicity,
exactly as `unrelated.length` is in the source). -/
def unrelatedFiles (recent : List Event) (goal : String) : List String :=
  (editedFilesLower recent).filter (isUnrelatedFile (goalWordsOf goal))

/-- `detectScopeCreep`: edits landing outside the goal's keyword scope.
The JS guard `if (!goal)` is the empty string here (the monitor never
calls the detectors with a null goal). `[...new Set(unrelated)]` keeps
first occurrences in order, i.e. `eraseDups`. -/
def detectScopeCreep (recent : List Event) (goal : String) : CreepSig :=
  if goal = "" then { detected := false, files := [] }
  else
    let unrelated := unrelatedFiles recent goal
    { detected := decide (3 ≤ unrelated.length),
      files := unrelated.eraseDups.take 3 }

/-- The adjacent-pair count of `detectGoodMomentum`'s loop over
`i ∈ [0, recent.length - 2]`. -/
def momentumScan : List Event → Nat
  | a :: b :: rest =>
    (if isEditWrite a && toolName? b == some "Bash" && !eventFailed b then 1 else 0)
      + momentumScan (b :: rest)
  | _ => 0

/-- `detectGoodMomentum`: 2+ occurrences of Edit/Write immediately
followed by a non-failing Bash call. -/
def detectGoodMomentum (recent : List Event) : MomSig :=
  let c := momentumScan recent
  { detected := decide (2 ≤ c), count := c }

/-- `detectNoProgress`: no Edit/Write among the last 20 events, with at
least 10 events present. -/
def detectNoProgress (events : List Event) : ProgSig :=
  let recent := lastN 20 events
  let hasWrite := recent.any isEditWrite
  { detected := !hasWrite && decide (10 ≤ recent.length) }

/-- `detectSignals`: all detectors over the last 15 tool_call events,
except `noProgress` which sees the full (recent) event list. -/
def detectSignals (events : List Event) (goal : String) : SignalSet :=
  let toolCalls := events.filter isToolCallEvent
  let recent := lastN 15 toolCalls
  { loop := detectLoop recent
    stuckOnFile := detectStuckOnFile recent
    errorStreak := detectErrorStreak recent
    paralysis := detectParalysis recent
    scopeCreep := detectScopeCreep recent goal
    goodMomentum := detectGoodMomentum recent
    noProgress := detectNoProgress events }

/-- `heuristicScore` (src/signals.mjs): base 70, fixed deltas per
detected signal, clamped into [0, 100] by
`Math.max(0, Math.min(100, score))`. -/
def heuristicScore (signals : SignalSet) : Int :=
  let score : Int := 70
  let score := if signals.loop.detected then score - 25 else score
  let score := if signals.stuckOnFile.detected then score - 20 else score
  let score := if signals.errorStreak.detected then score - 30 else score
  let score := if signals.paralysis.detected then score - 20 else score
  let score := if signals.scopeCreep.detected then score - 15 else score
  let score := if signals.noProgress.detected then score - 20 else score
  let score := if signals.goodMomentum.detected then score + 20 else score
  max 0 (min 100 score)

/-- The spec's reading of the score ("summing fixed deltas … against a
base of 70, clamped to [0,100]"), written as one arithmetic sum, to be
compared with the sequential `heuristicScore` above. -/
def heuristicScoreSpec (s : SignalSet) : Int :=
  max 0 (min 100 (70
    - (if s.loop.detected then 25 else 0)
    - (if s.stuckOnFile.detected then 20 else 0)
    - (if s.errorStreak.detected then 30 else 0)
    - (if s.paralysis.detected then 20 else 0)
    - (if s.scopeCreep.detected then 15 else 0)
    - (if s.noProgress.detected then 20 else 0)
    + (if s.goodMomentum.detected then 20 else 0)))

/-- A signal set with nothing detected (evidence fields as the JS
objects carry them in that case). -/
def sigNone : SignalSet :=
  { loop := { detected := false, command := none, count := none }
    stuckOnFile := { detected := false, file := none, count := none }
    errorStreak := { detected := false, streak := 0 }
    paralysis := { detected := false, count := 0 }
    scopeCreep := { detected := false, files := [] }
    goodMomentum := { detected := false, count := 0 }
    noProgress := { detected := false } }

/-- `sigNone` with only the error-streak signal firing. -/
def sigErr : SignalSet :=
  { sigNone with errorStreak := { detected := true, streak := 3 } }

/-! ### src/assess.mjs — external assessment with heuristic fallback -/

/-- A response object the Assessor returned and `JSON.parse` accepted,
as the code then reads it: `parsed.score`, `parsed.status`,
`parsed.reason` and `parsed.suggestion`, each possibly absent
(`undefined`, here `none`) — the code does NOT validate the shape, it
defaults each missing field. A present score is an integer (the
declared output contract is `score:int`; on these `Math.round` inside
`clamp` is the identity); a missing or non-numeric score makes
`Number(parsed.score)` NaN, which `|| 70` replaces just like 0, so
`none` covers it. -/
structure ApiResponse where
  score : Option Int
  status : Option String
  reason : Option String
  suggestion : Option String
deriving DecidableEq, Repr

/-- The value `assess` returns (the monitor later adds `assessedAt`). -/
structure Assessment where
  score : Int
  status : String
  reason : String
  suggestion : Option String
  source : String
deriving DecidableEq, Repr

/-- `clamp(n) = Math.max(0, Math.min(100, Math.round(n)))` on the
integer scores this model carries (`Math.round` is the identity). -/
def clamp (n : Int) : Int := max 0 (min 100 n)

/-- `Number(x) || d` on a possibly-absent `x`: the default replaces a
falsy number — `0`, or the NaN of a missing/non-numeric field
(`none`). -/
def jsNumOrDefault (n : Option Int) (d : Int) : Int :=
  match n with
  | none => d
  | some v => if v = 0 then d else v

/-- `normalizeStatus` (src/assess.mjs): `String(s ?? '')` uppercased,
then match the four known labels by substring containment, defaulting
to `HEADS UP` (a missing status becomes the empty string and so also
defaults). -/
def normalizeStatus (s : Option String) : String :=
  let upper := strUpper (s.getD "")
  if jsIncludes upper "ON TRACK" then "ON TRACK"
  else if jsIncludes upper "HEADS UP" then "HEADS UP"
  else if jsIncludes upper "DRIFTING" then "DRIFTING"
  else if jsIncludes upper "STUCK" then "STUCK"
  else "HEADS UP"

/-- `scoreToStatus` (src/assess.mjs): the fixed thresholds. -/
def scoreToStatus (score : Int) : String :=
  if 80 ≤ score then "ON TRACK"
  else if 60 ≤ score then "HEADS UP"
  else if 40 ≤ score then "DRIFTING"
  else "STUCK"

/-- `assess` (src/assess.mjs). The prompt text built from `goal`,
`events` and `signalText` feeds only the external call, which is
abstracted by `apiResult`: `none` is the `catch` path (the call threw,
timed out, or its output was not JSON), `some parsed` any output
`JSON.parse` accepted — including one with missing fields, which the
code does not reject but defaults field by field
(`Number(parsed.score) || 70`, `parsed.status` through
`normalizeStatus`, `parsed.reason ?? ''`). JS truthiness on
`parsed.suggestion` makes an empty string fall to `null`. -/
def assess (goal : String) (events : List Event) (signals : SignalSet)
    (signalText : String) (apiResult : Option ApiResponse) : Assessment :=
  let _recent := lastN 20 (events.filter isToolCallEvent)
  match apiResult with
  | some parsed =>
    { score := clamp (jsNumOrDefault parsed.score 70)
      status := normalizeStatus parsed.status
      reason := strTake (parsed.reason.getD "") 140
      suggestion :=
        match parsed.suggestion with
        | some s => if s = "" then none else some (strTake s 140)
        | none => none
      source := "api" }
  | none =>
    let score := heuristicScore signals
    { score := score
      status := scoreToStatus score
      reason := "API unavailable — using signal heuristics (" ++ signalText ++ ")"
      suggestion :=
        if score < 60 then some "Check the signals and consider redirecting the agent."
        else none
      source := "heuristic" }

/-! ### src/tail.mjs — one poll step of `tailJsonl` -/

/-- One `poll()` iteration of `tailJsonl`, reduced to its cursor logic:
given the cursor `lastByteOffset` and the result of `fs.statSync`
(`none` when the stat throws), return the new cursor and the byte range
`[cursor, size)` read, if any. Bytes are read and the cursor advanced
only when `stat.size > lastByteOffset`; in every other case (including
a shrunken file) the poll body changes nothing. -/
def pollStep (lastByteOffset : Nat) (statSize : Option Nat) :
    Nat × Option (Nat × Nat) :=
  match statSize with
  | none => (lastByteOffset, none)
  | some size =>
    if lastByteOffset < size then (size, some (lastByteOffset, size))
    else (lastByteOffset, none)

/-! ### src/monitor.mjs — line parser, reconciliation, assess counter -/

/-- One block of a raw record's `message.content` array, abstracted to
the shape tests `parseLine` performs (`b.type === 'text' | 'tool_use' |
'tool_result'`); `other` stands for any further block type. -/
inductive Block where
  | text (text : String)
  | tool_use (id : String) (name : String) (input : Option ToolInput)
  | tool_result (tool_use_id : String) (content : Option String)
      (is_error : Option Bool)
  | other
deriving DecidableEq, Repr

/-- A parsed JSONL line as `parseLine` inspects it: `obj.type`,
`obj.message?.content` when it is an array, and `obj.timestamp`. -/
structure RawRecord where
  rtype : String
  content : Option (List Block)
  timestamp : Option String
deriving DecidableEq, Repr

def isTextBlock : Block → Bool
  | .text _ => true
  | _ => false

def isToolResultBlock : Block → Bool
  | .tool_result _ _ _ => true
  | _ => false

/-- `content.find(b => b.type === 'text')`, projecting its `text`. -/
def findTextBlock : List Block → Option String
  | [] => none
  | b :: rest =>
    match b with
    | .text t => some t
    | _ => findTextBlock rest

/-- The assistant branch's loop: the first `tool_use` block, as the
tool_call event it yields (`failed` starts `false`). -/
def findToolUse (ts : String) : List Block → Option Event
  | [] => none
  | b :: rest =>
    match b with
    | .tool_use id name input =>
      some (.tool_call id { name := name, input := input.getD default } false ts)
    | _ => findToolUse ts rest

/-- The third branch's loop: the first `tool_result` block, as the
tool_result event it would yield (`is_error ?? false`). -/
def findToolResult (ts : String) : List Block → Option Event
  | [] => none
  | b :: rest =>
    match b with
    | .tool_result tid c e => some (.tool_result tid c (e.getD false) ts)
    | _ => findToolResult ts rest

/-- `parseLine` (src/monitor.mjs), mirroring its sequence of three `if`
blocks with fall-through. The wall-clock default
`new Date().toISOString()` for a missing timestamp is abstracted as the
fixed string `"now"` (no claim involves timestamps).

Its control flow: a `user` record with a content array returns a
user_message when a text block exists, returns `null` when any
tool_result block exists, and otherwise falls through; an `assistant`
record returns the first tool_use as a tool_call or falls through; the
final `user` branch looks for tool_result blocks — but it is only ever
reached when the first branch found none, so it never returns. -/
def parseLine (obj : RawRecord) : Option Event :=
  let ts := obj.timestamp.getD "now"
  let fallthrough2 : Option Event :=
    -- third if: obj.type === 'user' with a content array, first tool_result
    if obj.rtype = "user" then
      match obj.content with
      | some blocks => findToolResult ts blocks
      | none => none
    else none
  let fallthrough1 : Option Event :=
    -- second if: obj.type === 'assistant' with a content array
    if obj.rtype = "assistant" then
      match obj.content with
      | some blocks =>
        match findToolUse ts blocks with
        | some e => some e
        | none => fallthrough2
      | none => fallthrough2
    else fallthrough2
  -- first if: obj.type === 'user' with a content array
  if obj.rtype = "user" then
    match obj.content with
    | some blocks =>
      match findTextBlock blocks with
      | some t => some (.user_message t ts)
      | none =>
        if 0 < (blocks.filter isToolResultBlock).length then none
        else fallthrough1
    | none => fallthrough1
  else fallthrough1

/-- `reconcileFailures` (src/monitor.mjs): gather results into a map
keyed by `toolUseId` (later `Map.set` wins, modelled by consing to the
front and taking the first match), then set each matching tool_call's
`failed` to the result's `isError` (already a `Bool` after parsing, so
the source's `?? false` is the identity). The source mutates in place;
this is the same pass functionally. -/
def reconcileFailures (events : List Event) : List Event :=
  let results : List (String × Bool) := events.foldl
    (fun m e => match e with
      | .tool_result tid _ isErr _ => (tid, isErr) :: m
      | _ => m) []
  events.map fun e => match e with
    | .tool_call id tool _ ts =>
      match results.find? (fun p => p.1 == id) with
      | some p => .tool_call id tool p.2 ts
      | none => e
    | _ => e

/-- `ASSESS_EVERY_N_CALLS` (src/monitor.mjs). -/
def ASSESS_EVERY_N_CALLS : Nat := 10

/-- The counter logic of the tail handler in `startMonitor`: on a
tool_call entry, increment `toolCallsSinceAssess`; once it reaches the
threshold, reset to 0 and trigger `runAssess`. Returns the new counter
and whether an assessment was triggered. -/
def handleEntryCounter (counter : Nat) (entry : Event) : Nat × Bool :=
  if isToolCallEvent entry then
    let c := counter + 1
    if ASSESS_EVERY_N_CALLS ≤ c then (0, true) else (c, false)
  else (counter, false)

/-- Folding the tail handler over a list of parsed entries: final
counter and how many assessments the counter path triggered. -/
def processEntries (counter : Nat) : List Event → Nat × Nat
  | [] => (counter, 0)
  | e :: rest =>
    let step := handleEntryCounter counter e
    let tail := processEntries step.1 rest
    (tail.1, (if step.2 then 1 else 0) + tail.2)

/-- `promptGoalUpdate`'s effect on the counter: a non-blank new goal
sets `toolCallsSinceAssess = ASSESS_EVERY_N_CALLS`, forcing the next
tool call to trigger; a blank input leaves it unchanged. -/
def promptGoalUpdateCounter (newGoal : String) (counter : Nat) : Nat :=
  if strTrim newGoal ≠ "" then ASSESS_EVERY_N_CALLS else counter

/-- The count of tool_call events in a list (what the counter path
reacts to). -/
def countToolCalls (events : List Event) : Nat :=
  events.countP isToolCallEvent

/-! ### Concrete inputs used by counterexamples and witnesses -/

def editEvent (id f : String) : Event :=
  .tool_call id { name := "Edit", input := { command := none, file_path := some f } } false "t0"

def bashEvent (id cmd : String) (failed : Bool) : Event :=
  .tool_call id { name := "Bash", input := { command := some cmd, file_path := none } } failed "t0"

def readEvent (id : String) : Event :=
  .tool_call id { name := "Read", input := { command := none, file_path := some "/r.txt" } } false "t0"

/-- A raw assistant record carrying one tool_use block. -/
def rawCall : RawRecord :=
  { rtype := "assistant"
    content := some [Block.tool_use "t1" "Bash" (some { command := some "npm test", file_path := none })]
    timestamp := some "T1" }

/-- A raw user record carrying one tool_result block with
`is_error: true`, matching `rawCall`'s id. -/
def rawResult : RawRecord :=
  { rtype := "user"
    content := some [Block.tool_result "t1" none (some true)]
    timestamp := some "T2" }

/-! ### Helper lemmas -/

/-- A positive bound is below a fold of `max` over a list exactly when
some listed value reaches it. -/
lemma le_foldr_max {k : Nat} (hk : 0 < k) (xs : List Nat) :
    k ≤ xs.foldr max 0 ↔ ∃ x ∈ xs, k ≤ x := by
  induction xs with
  | nil => simp; omega
  | cons a rest ih =>
    simp only [List.foldr_cons, le_max_iff, List.mem_cons]
    constructor
    · rintro (h | h)
      · exact ⟨a, Or.inl rfl, h⟩
      · obtain ⟨x, hx, hkx⟩ := ih.mp h
        exact ⟨x, Or.inr hx, hkx⟩
    · rintro ⟨x, hx | hx, hkx⟩
      · exact Or.inl (hx ▸ hkx)
      · exact Or.inr (ih.mpr ⟨x, hx, hkx⟩)

/-- `maxCount` reaches a positive bound exactly when some element's
multiplicity does. -/
lemma le_maxCount_iff {k : Nat} (hk : 0 < k) (l : List String) :
    k ≤ maxCount l ↔ ∃ c ∈ l, k ≤ l.count c := by
  unfold maxCount
  rw [le_foldr_max hk]
  constructor
  · rintro ⟨x, hx, hkx⟩
    obtain ⟨c, hc, rfl⟩ := List.mem_map.mp hx
    exact ⟨c, hc, hkx⟩
  · rintro ⟨c, hc, hkc⟩
    exact ⟨l.count c, List.mem_map.mpr ⟨c, hc, rfl⟩, hkc⟩

/-- Permutations preserve whether the maximal multiplicity reaches a
positive bound. -/
lemma le_maxCount_perm {l₁ l₂ : List String} (h : l₁.Perm l₂) {k : Nat} (hk : 0 < k) :
    (k ≤ maxCount l₁) ↔ (k ≤ maxCount l₂) := by
  rw [le_maxCount_iff hk, le_maxCount_iff hk]
  constructor
  · rintro ⟨c, hc, hkc⟩
    exact ⟨c, h.mem_iff.mp hc, (h.count_eq c) ▸ hkc⟩
  · rintro ⟨c, hc, hkc⟩
    exact ⟨c, h.mem_iff.mpr hc, (h.count_eq c).symm ▸ hkc⟩

/-- `List.any` is permutation-invariant. -/
lemma any_perm {α : Type} {l₁ l₂ : List α} (h : l₁.Perm l₂) (p : α → Bool) :
    l₁.any p = l₂.any p := by
  cases h1 : l₁.any p <;> cases h2 : l₂.any p
  · rfl
  · obtain ⟨x, hx, hpx⟩ := List.any_eq_true.mp h2
    have : l₁.any p = true := List.any_eq_true.mpr ⟨x, h.mem_iff.mpr hx, hpx⟩
    rw [h1] at this; exact this
  · obtain ⟨x, hx, hpx⟩ := List.any_eq_true.mp h1
    have : l₂.any p = true := List.any_eq_true.mpr ⟨x, h.mem_iff.mp hx, hpx⟩
    rw [h2] at this; exact this.symm
  · rfl

/-! ### Claim theorems -/

/-- C2: `heuristicScore` equals the base 70 with the spec's fixed
deltas (loop −25, stuckOnFile −20, errorStreak −30, paralysis −20,
scopeCreep −15, noProgress −20, goodMomentum +20) clamped to [0,100],
its value always lies in [0,100], and it is a pure function: identical
signal sets yield identical scores. -/
theorem heuristicScore_pure_and_clamped (s t : SignalSet) (hst : s = t) :
    heuristicScore s = heuristicScoreSpec s ∧
    0 ≤ heuristicScore s ∧ heuristicScore s ≤ 100 ∧
    heuristicScore s = heuristicScore t := by
  subst hst
  refine ⟨?_, le_max_left 0 _, max_le (by norm_num) (min_le_left _ _), rfl⟩
  obtain ⟨⟨b1, c1, k1⟩, ⟨b2, f2, k2⟩, ⟨b3, k3⟩, ⟨b4, k4⟩, ⟨b5, f5⟩, ⟨b6, k6⟩, ⟨b7⟩⟩ := s
  cases b1 <;> cases b2 <;> cases b3 <;> cases b4 <;> cases b5 <;> cases b6 <;>
    cases b7 <;> rfl

/-- Witness for C2 at a concrete signal set. -/
theorem heuristicScore_pure_and_clamped_witness :
    heuristicScore sigNone = heuristicScoreSpec sigNone ∧
    0 ≤ heuristicScore sigNone ∧ heuristicScore sigNone ≤ 100 ∧
    heuristicScore sigNone = heuristicScore sigNone :=
  heuristicScore_pure_and_clamped sigNone sigNone rfl

/-- C10: the only positive delta being goodMomentum's +20 over the base
70, `heuristicScore` never exceeds 90, and hence a fallback
(heuristic-sourced) assessment can never carry a score in 91..100. -/
theorem heuristicScore_at_most_90 (s : SignalSet) (goal : String)
    (events : List Event) (txt : String) :
    heuristicScore s ≤ 90 ∧ (assess goal events s txt none).score ≤ 90 := by
  have h : heuristicScore s ≤ 90 := by
    obtain ⟨⟨b1, c1, k1⟩, ⟨b2, f2, k2⟩, ⟨b3, k3⟩, ⟨b4, k4⟩, ⟨b5, f5⟩, ⟨b6, k6⟩, ⟨b7⟩⟩ := s
    cases b1 <;> cases b2 <;> cases b3 <;> cases b4 <;> cases b5 <;> cases b6 <;>
      cases b7 <;> exact of_decide_eq_true rfl
  refine ⟨h, ?_⟩
  have e : (assess goal events s txt none).score = heuristicScore s := rfl
  rw [e]; exact h

/-- C3 (amended): when the external Assessor call throws, times out,
or returns output `JSON.parse` rejects (the `catch` path,
`apiResult = none`), `assess` returns the heuristic fallback: source
`heuristic`, score exactly `heuristicScore signals`, status by the
fixed thresholds, and a suggestion exactly when the score is below 60.
But a response that parses as JSON with missing fields is NOT treated
as failure: the code accepts it with source `api` and defaulted fields
(a missing score becomes 70, a missing status `HEADS UP`, a missing
reason the empty string). -/
theorem assess_fallback_heuristic (goal : String) (events : List Event)
    (signals : SignalSet) (txt : String) :
    (assess goal events signals txt none).source = "heuristic" ∧
    (assess goal events signals txt none).score = heuristicScore signals ∧
    (80 ≤ (assess goal events signals txt none).score →
      (assess goal events signals txt none).status = "ON TRACK") ∧
    (60 ≤ (assess goal events signals txt none).score ∧
        (assess goal events signals txt none).score < 80 →
      (assess goal events signals txt none).status = "HEADS UP") ∧
    (40 ≤ (assess goal events signals txt none).score ∧
        (assess goal events signals txt none).score < 60 →
      (assess goal events signals txt none).status = "DRIFTING") ∧
    ((assess goal events signals txt none).score < 40 →
      (assess goal events signals txt none).status = "STUCK") ∧
    ((assess goal events signals txt none).suggestion ≠ none ↔
      (assess goal events signals txt none).score < 60) ∧
    (∀ resp : ApiResponse,
      (assess goal events signals txt (some resp)).source = "api") ∧
    (∀ resp : ApiResponse, resp.score = none →
      (assess goal events signals txt (some resp)).score = 70) ∧
    (∀ resp : ApiResponse, resp.status = none →
      (assess goal events signals txt (some resp)).status = "HEADS UP") ∧
    (∀ resp : ApiResponse, resp.reason = none →
      (assess goal events signals txt (some resp)).reason = "") := by
  have hsc : (assess goal events signals txt none).score = heuristicScore signals := rfl
  have hst : (assess goal events signals txt none).status =
      scoreToStatus (heuristicScore signals) := rfl
  have hsg : (assess goal events signals txt none).suggestion =
      (if heuristicScore signals < 60
        then some "Check the signals and consider redirecting the agent."
        else none) := rfl
  refine ⟨rfl, hsc, ?_, ?_, ?_, ?_, ?_, ?_, ?_, ?_, ?_⟩
  · intro h; rw [hsc] at h
    rw [hst]; unfold scoreToStatus; rw [if_pos h]
  · rintro ⟨h60, h80⟩; rw [hsc] at h60 h80
    rw [hst]; unfold scoreToStatus; rw [if_neg (by omega), if_pos h60]
  · rintro ⟨h40, h60⟩; rw [hsc] at h40 h60
    rw [hst]; unfold scoreToStatus
    rw [if_neg (by omega), if_neg (by omega), if_pos h40]
  · intro h; rw [hsc] at h
    rw [hst]; unfold scoreToStatus
    rw [if_neg (by omega), if_neg (by omega), if_neg (by omega)]
  · rw [hsg, hsc]
    by_cases h : heuristicScore signals < 60 <;> simp [h]
  · intro resp; rfl
  · intro resp h
    have : (assess goal events signals txt (some resp)).score =
        clamp (jsNumOrDefault resp.score 70) := rfl
    rw [this, h]; rfl
  · intro resp h
    have : (assess goal events signals txt (some resp)).status =
        normalizeStatus resp.status := rfl
    rw [this, h]; rfl
  · intro resp h
    have : (assess goal events signals txt (some resp)).reason =
        strTake (resp.reason.getD "") 140 := rfl
    rw [this, h]; rfl

/-- Folding the tail handler from any in-range counter: the final
counter and trigger count follow the tool-call count mod/div 10. -/
lemma processEntries_mod_div (es : List Event) :
    ∀ c : Nat, c < ASSESS_EVERY_N_CALLS →
      (processEntries c es).1 = (c + countToolCalls es) % 10 ∧
      (processEntries c es).2 = (c + countToolCalls es) / 10 := by
  induction es with
  | nil =>
    intro c hc
    simp only [ASSESS_EVERY_N_CALLS] at hc
    refine ⟨?_, ?_⟩ <;> simp [processEntries, countToolCalls] <;> omega
  | cons e rest ih =>
    intro c hc
    simp only [ASSESS_EVERY_N_CALLS] at hc
    by_cases ht : isToolCallEvent e
    · by_cases hnine : (9 : Nat) ≤ c
      · have hc9 : c = 9 := by omega
        subst hc9
        have hstep : handleEntryCounter 9 e = (0, true) := by
          simp [handleEntryCounter, ht, ASSESS_EVERY_N_CALLS]
        obtain ⟨ih1, ih2⟩ := ih 0 (by simp [ASSESS_EVERY_N_CALLS])
        refine ⟨?_, ?_⟩ <;>
          simp [processEntries, hstep, countToolCalls, List.countP_cons, ht,
            ih1, ih2, countToolCalls] <;> omega
      · have hstep : handleEntryCounter c e = (c + 1, false) := by
          simp [handleEntryCounter, ht, ASSESS_EVERY_N_CALLS]; omega
        obtain ⟨ih1, ih2⟩ := ih (c + 1) (by simp [ASSESS_EVERY_N_CALLS]; omega)
        refine ⟨?_, ?_⟩ <;>
          simp [processEntries, hstep, countToolCalls, List.countP_cons, ht,
            ih1, ih2] <;> omega
    · have hstep : handleEntryCounter c e = (c, false) := by
        simp [handleEntryCounter, ht]
      obtain ⟨ih1, ih2⟩ := ih c (by simp [ASSESS_EVERY_N_CALLS]; omega)
      refine ⟨?_, ?_⟩ <;>
        simp [processEntries, hstep, countToolCalls, List.countP_cons, ht,
          ih1, ih2] <;> omega

/-- C4: running the tail handler from a fresh counter, an automatic
assessment is triggered exactly at every 10th tool-call entry (trigger
count = toolCalls / 10, counter left = toolCalls % 10); no trigger at
all before 10 tool calls; two triggers require at least 20 tool calls
(so never back-to-back with fewer than 10 between); and after a manual
goal update (which presets the counter to the threshold) a single tool
call forces a trigger early. -/
theorem assess_counter_every_ten (es : List Event) (g : String) (e : Event) :
    (processEntries 0 es).1 = countToolCalls es % 10 ∧
    (processEntries 0 es).2 = countToolCalls es / 10 ∧
    ((processEntries 0 es).2 = 0 ↔ countToolCalls es < 10) ∧
    (2 ≤ (processEntries 0 es).2 → 20 ≤ countToolCalls es) ∧
    (isToolCallEvent e = true → strTrim g ≠ "" →
      handleEntryCounter (promptGoalUpdateCounter g 0) e = (0, true)) := by
  have h := processEntries_mod_div es 0 (by simp [ASSESS_EVERY_N_CALLS])
  simp only [Nat.zero_add] at h
  refine ⟨h.1, h.2, ?_, ?_, ?_⟩
  · rw [h.2]; omega
  · rw [h.2]; omega
  · intro ht hg
    simp [promptGoalUpdateCounter, hg, handleEntryCounter, ht, ASSESS_EVERY_N_CALLS]

/-- C3 counterexample: the response `{"score": 50}` — JSON that parses
but is missing the status/reason/suggestion fields, malformed output
per the spec's Assessor contract — is NOT routed to the heuristic
fallback: the code accepts it with source `'api'`, the parsed score,
and a defaulted `HEADS UP` status. -/
theorem malformed_fields_accepted_cex :
    (assess "g" [] sigNone "t"
        (some { score := some 50, status := none, reason := none, suggestion := none })).source
      = "api" ∧
    ((assess "g" [] sigNone "t"
        (some { score := some 50, status := none, reason := none, suggestion := none })).source
      == "heuristic") = false ∧
    (assess "g" [] sigNone "t"
        (some { score := some 50, status := none, reason := none, suggestion := none })).score
      = 50 ∧
    (assess "g" [] sigNone "t"
        (some { score := some 50, status := none, reason := none, suggestion := none })).status
      = "HEADS UP" ∧
    (assess "g" [] sigNone "t"
        (some { score := some 50, status := none, reason := none, suggestion := none })).reason
      = "" := by
  refine ⟨rfl, rfl, by decide, by decide, rfl⟩

/-- C5 counterexample: on a well-formed successful response the
produced source label is the literal `'api'`, not `'external'`. -/
theorem external_label_cex :
    ((assess "g" [] sigNone "t"
        (some { score := some 85, status := some "ON TRACK", reason := some "ok",
                suggestion := none })).source
      == "external") = false ∧
    (assess "g" [] sigNone "t"
        (some { score := some 85, status := some "ON TRACK", reason := some "ok",
                suggestion := none })).source
      = "api" := by
  constructor
  · rfl
  · rfl

/-- C5 (amended): a successful well-formed response always yields
source `'api'` — the code's label for an externally produced
assessment — and every assessment's source is one of the two labels
`'api'` and `'heuristic'`. -/
theorem external_source_is_api (goal : String) (events : List Event)
    (signals : SignalSet) (txt : String) (resp : ApiResponse) :
    (assess goal events signals txt (some resp)).source = "api" ∧
    ∀ r : Option ApiResponse,
      (assess goal events signals txt r).source = "api" ∨
      (assess goal events signals txt r).source = "heuristic" := by
  refine ⟨rfl, ?_⟩
  intro r
  cases r with
  | none => exact Or.inr rfl
  | some p => exact Or.inl rfl

/-- C6 counterexample: a well-formed response with score 0 produces an
assessment score of 70, not `clamp 0 = 0`: JS `Number(parsed.score) ||
70` treats the falsy 0 as absent. -/
theorem zero_score_becomes_70_cex :
    (assess "g" [] sigNone "t"
        (some { score := some 0, status := some "STUCK", reason := some "r",
                suggestion := none })).score = 70 ∧
    clamp 0 = 0 ∧
    ((assess "g" [] sigNone "t"
        (some { score := some 0, status := some "STUCK", reason := some "r",
                suggestion := none })).score
      == clamp 0) = false := by
  refine ⟨rfl, rfl, rfl⟩

/-- C6 (amended): for a response carrying a nonzero numeric score the
produced score is the response score clamped to [0,100]; a response
score of 0 is replaced by the default 70; and a present status label
containing none of the four known labels (after uppercasing) is
normalized to `HEADS UP` (as is a missing one, which defaults through
the empty string). -/
theorem response_score_and_status (goal : String) (events : List Event)
    (signals : SignalSet) (txt : String) (resp : ApiResponse) :
    (∀ n : Int, resp.score = some n → n ≠ 0 →
      (assess goal events signals txt (some resp)).score = clamp n) ∧
    (resp.score = some 0 →
      (assess goal events signals txt (some resp)).score = clamp 70) ∧
    (∀ st : String, resp.status = some st →
      jsIncludes (strUpper st) "ON TRACK" = false →
      jsIncludes (strUpper st) "HEADS UP" = false →
      jsIncludes (strUpper st) "DRIFTING" = false →
      jsIncludes (strUpper st) "STUCK" = false →
      (assess goal events signals txt (some resp)).status = "HEADS UP") := by
  have hscore : (assess goal events signals txt (some resp)).score =
      clamp (jsNumOrDefault resp.score 70) := rfl
  have hstatus : (assess goal events signals txt (some resp)).status =
      normalizeStatus resp.status := rfl
  refine ⟨?_, ?_, ?_⟩
  · intro n hn h
    rw [hscore, hn]
    simp only [jsNumOrDefault, if_neg h]
  · intro h
    rw [hscore, h]
    simp [jsNumOrDefault]
  · intro st hst h1 h2 h3 h4
    rw [hstatus, hst]
    unfold normalizeStatus
    simp only [Option.getD_some, h1, h2, h3, h4, Bool.false_eq_true, if_false]

/-- C9 counterexample: a poll that sees the size shrunk from cursor 100
to 50 leaves the cursor at 100 and reads nothing — it is not re-seeked
to the new size 50. -/
theorem shrink_cursor_cex :
    pollStep 100 (some 50) = (100, none) ∧
    ((pollStep 100 (some 50)).1 == 50) = false := by
  refine ⟨rfl, rfl⟩

/-- C9 (amended): whenever the stat size is below the cursor
(truncation/rotation), the poll changes nothing: the cursor keeps its
old value and no byte range is read; reads resume only once the size
again exceeds the old cursor. -/
theorem shrink_leaves_cursor (cursor size : Nat) (h : size < cursor) :
    pollStep cursor (some size) = (cursor, none) := by
  simp only [pollStep]
  rw [if_neg (by omega)]

/-- Witness for C9 at a concrete shrink. -/
theorem shrink_leaves_cursor_witness :
    50 < 100 ∧ pollStep 100 (some 50) = (100, none) :=
  ⟨by decide, shrink_leaves_cursor 100 50 (by decide)⟩

/-- The spec's reading of scope creep ("≥3 DISTINCT edited files …"),
for comparison with the source's multiplicity count: the number of
distinct unrelated edited paths in the window. -/
def scopeCreepDistinctCount (recent : List Event) (goal : String) : Nat :=
  (unrelatedFiles recent goal).eraseDups.length

/-- The window of C7's counterexample: the same unrelated file edited
three times, under a goal none of whose significant words occurs in the
path. -/
def creepWindow : List Event :=
  [editEvent "e1" "/src/main.js", editEvent "e2" "/src/main.js",
    editEvent "e3" "/src/main.js"]

/-- C7 counterexample: three edits of one and the same unrelated file
set `detected = true` although only 1 distinct unrelated file was
touched — the source counts the `unrelated` list with multiplicity,
not distinct paths. -/
theorem scope_creep_distinct_cex :
    (detectScopeCreep creepWindow "improve the parser here").detected = true ∧
    scopeCreepDistinctCount creepWindow "improve the parser here" = 1 ∧
    decide (3 ≤ scopeCreepDistinctCount creepWindow "improve the parser here") = false := by
  refine ⟨by decide, by decide, by decide⟩

/-- C7 (amended): for a non-empty goal, scopeCreep fires exactly when
at least 3 Edit/Write calls of the window (counted with multiplicity,
not distinct paths) target a lowercased path containing none of the
goal's significant words (>3 chars) and not containing test, spec or
config. -/
theorem scope_creep_multiplicity (recent : List Event) (goal : String)
    (hg : goal ≠ "") :
    (detectScopeCreep recent goal).detected = true ↔
      3 ≤ (unrelatedFiles recent goal).length := by
  simp only [detectScopeCreep, if_neg hg]
  exact decide_eq_true_iff

/-- Witness for C7 at a concrete window and goal. -/
theorem scope_creep_multiplicity_witness :
    "improve the parser here" ≠ "" ∧
    ((detectScopeCreep creepWindow "improve the parser here").detected = true ↔
      3 ≤ (unrelatedFiles creepWindow "improve the parser here").length) :=
  ⟨by decide, scope_creep_multiplicity creepWindow "improve the parser here" (by decide)⟩

/-! Permutation invariance of the order-insensitive detectors. -/

lemma detectLoop_perm {l₁ l₂ : List Event} (h : l₁.Perm l₂) :
    (detectLoop l₁).detected = (detectLoop l₂).detected := by
  have hc : (bashCmds l₁).Perm (bashCmds l₂) := (h.filter _).map _
  have hiff := le_maxCount_perm hc (k := 3) (by norm_num)
  by_cases hm : 3 ≤ maxCount (bashCmds l₂)
  · have hm1 : 3 ≤ maxCount (bashCmds l₁) := hiff.mpr hm
    simp [detectLoop, hm, hm1]
  · have hm1 : ¬ 3 ≤ maxCount (bashCmds l₁) := fun hx => hm (hiff.mp hx)
    simp [detectLoop, hm, hm1]

lemma detectStuckOnFile_perm {l₁ l₂ : List Event} (h : l₁.Perm l₂) :
    (detectStuckOnFile l₁).detected = (detectStuckOnFile l₂).detected := by
  have he : (editsOf l₁).Perm (editsOf l₂) := h.filter _
  have hlen : (editsOf l₁).length = (editsOf l₂).length := he.length_eq
  have hf : (editFilePaths l₁).Perm (editFilePaths l₂) := he.map _
  have hiff := le_maxCount_perm hf (k := 5) (by norm_num)
  by_cases hl5 : (editsOf l₂).length < 5
  · have hl5' : (editsOf l₁).length < 5 := hlen ▸ hl5
    simp [detectStuckOnFile, hl5, hl5']
  · have hl5' : ¬ (editsOf l₁).length < 5 := hlen ▸ hl5
    by_cases hm : 5 ≤ maxCount (editFilePaths l₂)
    · have hm1 : 5 ≤ maxCount (editFilePaths l₁) := hiff.mpr hm
      simp [detectStuckOnFile, hl5, hl5', hm, hm1]
    · have hm1 : ¬ 5 ≤ maxCount (editFilePaths l₁) := fun hx => hm (hiff.mp hx)
      simp [detectStuckOnFile, hl5, hl5', hm, hm1]

lemma detectScopeCreep_perm {l₁ l₂ : List Event} (goal : String) (h : l₁.Perm l₂) :
    (detectScopeCreep l₁ goal).detected = (detectScopeCreep l₂ goal).detected := by
  have hu : (unrelatedFiles l₁ goal).Perm (unrelatedFiles l₂ goal) :=
    ((h.filter _).map _).filter _
  have hlen : (unrelatedFiles l₁ goal).length = (unrelatedFiles l₂ goal).length :=
    hu.length_eq
  by_cases hg : goal = ""
  · simp [detectScopeCreep, hg]
  · simp only [detectScopeCreep, if_neg hg, hlen]

lemma detectNoProgress_perm_small {l₁ l₂ : List Event} (h : l₁.Perm l₂)
    (hlen : l₁.length ≤ 20) :
    (detectNoProgress l₁).detected = (detectNoProgress l₂).detected := by
  have hl : l₁.length = l₂.length := h.length_eq
  have h1 : lastN 20 l₁ = l₁ := by
    simp [lastN, Nat.sub_eq_zero_of_le hlen]
  have h2 : lastN 20 l₂ = l₂ := by
    simp [lastN, Nat.sub_eq_zero_of_le (hl ▸ hlen)]
  simp only [detectNoProgress, h1, h2, any_perm h, hl]

/-- The windows C8's counterexample permutes. -/
def streakWinA : List Event :=
  [bashEvent "b1" "x" true, bashEvent "b2" "y" false, bashEvent "b3" "x" true,
    bashEvent "b4" "y" false, bashEvent "b5" "x" true]

def streakWinB : List Event :=
  [bashEvent "b1" "x" true, bashEvent "b3" "x" true, bashEvent "b5" "x" true,
    bashEvent "b2" "y" false, bashEvent "b4" "y" false]

def paraWinA : List Event :=
  editEvent "e1" "/a.js" :: List.replicate 8 (readEvent "r1")

def paraWinB : List Event :=
  List.replicate 8 (readEvent "r1") ++ [editEvent "e1" "/a.js"]

def momWinA : List Event :=
  [editEvent "e1" "/a.js", bashEvent "b1" "t" false,
    editEvent "e2" "/a.js", bashEvent "b2" "t" false]

def momWinB : List Event :=
  [editEvent "e1" "/a.js", editEvent "e2" "/a.js",
    bashEvent "b1" "t" false, bashEvent "b2" "t" false]

/-- C8 counterexample: errorStreak, paralysis and goodMomentum are
order-SENSITIVE — for each, a window and a permutation of it yield
different detected flags. -/
theorem detectors_order_sensitive_cex :
    (streakWinA.Perm streakWinB ∧
      (detectErrorStreak streakWinA).detected = false ∧
      (detectErrorStreak streakWinB).detected = true) ∧
    (paraWinA.Perm paraWinB ∧
      (detectParalysis paraWinA).detected = true ∧
      (detectParalysis paraWinB).detected = false) ∧
    (momWinA.Perm momWinB ∧
      (detectGoodMomentum momWinA).detected = true ∧
      (detectGoodMomentum momWinB).detected = false) := by
  refine ⟨⟨by decide, by decide, by decide⟩, ⟨by decide, by decide, by decide⟩,
    ⟨by decide, by decide, by decide⟩⟩

/-- C8 (amended): loop, stuckOnFile and scopeCreep are
order-insensitive on the recent window, and noProgress is
order-insensitive on its (at most 20 events long) window; the remaining
three detectors are order-sensitive, as the counterexample shows. -/
theorem detectors_order_insensitive (l₁ l₂ : List Event) (goal : String)
    (hp : l₁.Perm l₂) :
    (detectLoop l₁).detected = (detectLoop l₂).detected ∧
    (detectStuckOnFile l₁).detected = (detectStuckOnFile l₂).detected ∧
    (detectScopeCreep l₁ goal).detected = (detectScopeCreep l₂ goal).detected ∧
    (l₁.length ≤ 20 →
      (detectNoProgress l₁).detected = (detectNoProgress l₂).detected) :=
  ⟨detectLoop_perm hp, detectStuckOnFile_perm hp, detectScopeCreep_perm goal hp,
    fun hlen => detectNoProgress_perm_small hp hlen⟩

/-- Witness for C8 at a concrete two-element window and its swap. -/
theorem detectors_order_insensitive_witness :
    List.Perm [editEvent "e1" "/a.js", bashEvent "b1" "t" false]
      [bashEvent "b1" "t" false, editEvent "e1" "/a.js"] ∧
    (detectLoop [editEvent "e1" "/a.js", bashEvent "b1" "t" false]).detected =
      (detectLoop [bashEvent "b1" "t" false, editEvent "e1" "/a.js"]).detected ∧
    (detectNoProgress [editEvent "e1" "/a.js", bashEvent "b1" "t" false]).detected =
      (detectNoProgress [bashEvent "b1" "t" false, editEvent "e1" "/a.js"]).detected :=
  ⟨by decide,
    (detectors_order_insensitive _ _ "g" (by decide)).1,
    (detectors_order_insensitive _ _ "g" (by decide)).2.2.2 (by decide)⟩

/-! C1: the parser drops every tool_result record, so the back-fill the
spec describes never happens on monitor-parsed logs. -/

/-- A tool_call is not a tool_result. -/
lemma isToolResult_of_toolCall {e : Event} (h : isToolCallEvent e = true) :
    isToolResultEvent e = false := by
  cases e <;> simp_all [isToolCallEvent, isToolResultEvent]

/-- The assistant branch's loop only ever yields tool_call events. -/
lemma findToolUse_isToolCall {ts : String} :
    ∀ {blocks : List Block} {e : Event},
      findToolUse ts blocks = some e → isToolCallEvent e = true := by
  intro blocks
  induction blocks with
  | nil => intro e h; simp [findToolUse] at h
  | cons b rest ih =>
    intro e h
    cases b with
    | tool_use id name input =>
      simp only [findToolUse, Option.some.injEq] at h
      rw [← h]; rfl
    | text t => exact ih (by simpa [findToolUse] using h)
    | tool_result tid c er => exact ih (by simpa [findToolUse] using h)
    | other => exact ih (by simpa [findToolUse] using h)

/-- When a block list holds no tool_result block, the third branch's
loop finds nothing. -/
lemma findToolResult_of_no_results {ts : String} :
    ∀ {blocks : List Block},
      (blocks.filter isToolResultBlock).length = 0 → findToolResult ts blocks = none := by
  intro blocks
  induction blocks with
  | nil => intro _; rfl
  | cons b rest ih =>
    intro h
    cases b with
    | tool_result tid c er => simp [List.filter_cons, isToolResultBlock] at h
    | text t =>
      simp only [List.filter_cons, isToolResultBlock] at h
      simpa [findToolResult] using ih (by simpa using h)
    | tool_use id name input =>
      simp only [List.filter_cons, isToolResultBlock] at h
      simpa [findToolResult] using ih (by simpa using h)
    | other =>
      simp only [List.filter_cons, isToolResultBlock] at h
      simpa [findToolResult] using ih (by simpa using h)

/-- No output of `parseLine` is ever a tool_result event: the branch
that would build one is only reached when the record holds no
tool_result block. -/
lemma parseLine_no_toolResult (obj : RawRecord) :
    (parseLine obj).all (fun e => !isToolResultEvent e) = true := by
  obtain ⟨rt, content, tsv⟩ := obj
  by_cases hu : rt = "user"
  · subst hu
    cases content with
    | none => rfl
    | some blocks =>
      cases hfb : findTextBlock blocks with
      | some t => simp [parseLine, hfb, isToolResultEvent]
      | none =>
        by_cases hr : 0 < (blocks.filter isToolResultBlock).length
        · simp [parseLine, hfb, hr]
        · have h0 : (blocks.filter isToolResultBlock).length = 0 := by omega
          simp [parseLine, hfb, hr, findToolResult_of_no_results h0]
  · by_cases ha : rt = "assistant"
    · subst ha
      cases content with
      | none => simp [parseLine]
      | some blocks =>
        cases hfu : findToolUse (tsv.getD "now") blocks with
        | some e =>
          have he := isToolResult_of_toolCall (findToolUse_isToolCall hfu)
          simp [parseLine, hfu, he]
        | none => simp [parseLine, hfu]
    · simp [parseLine, hu, ha]

/-- C1 (code bug): a log with a tool_call and its matching tool_result
(`is_error: true`) parses to a single tool_call whose `failed` flag
stays `false` even after `reconcileFailures` — `parseLine` returns
null for every tool_result record (its tool_result branch is
unreachable), so no result ever back-fills a call. -/
theorem tool_results_never_backfilled :
    parseLine rawResult = none ∧
    [rawCall, rawResult].filterMap parseLine =
      [Event.tool_call "t1"
        { name := "Bash", input := { command := some "npm test", file_path := none } }
        false "T1"] ∧
    reconcileFailures ([rawCall, rawResult].filterMap parseLine) =
      [Event.tool_call "t1"
        { name := "Bash", input := { command := some "npm test", file_path := none } }
        false "T1"] ∧
    (∀ obj : RawRecord, (parseLine obj).all (fun e => !isToolResultEvent e) = true) :=
  ⟨by decide, by decide, by decide, parseLine_no_toolResult⟩

end SessionMonitor
